import Mathlib

/-!
Shallow embedding of the streaming proxy in
`src/playwright_mcp_databricks/app.py` (FastAPI wrapper around the Node.js
Playwright MCP server).

The embedding models, directly from the source:
  * executable resolution (app.py lines 60-68),
  * the spawn command line (lines 72-79) and pipe configuration (lines 81-86),
  * the relay generator `stream_response` (lines 88-101), including its
    `try/finally` cleanup block, as an event trace parameterised by the exit
    path of the loop (normal EOF, exception, cancellation) - the standard
    Python semantics of `finally` is that the block runs exactly once on each
    of those exits,
  * the handler `handle_sse_connection` (lines 51-110) as a function from the
    request, the file system and the child behaviour to the session result,
  * the four route registrations (lines 113-130).

Bytes are lists of naturals; a `readline` result of `[]` is the empty read
signalling end of stream. The request value is carried through the handler
exactly as in the source: the Python handler receives `request` and never
uses it, so the Lean handler takes it and ignores it.
-/

/-- A byte string, as read from or written to a child process stream. -/
abbrev Bytes := List Nat

/-- HTTP methods relevant to the app (FastAPI registers get and post for the
streaming routes; other verbs are not registered there). -/
inductive Method
  | get
  | post
  | put
  | delete
deriving DecidableEq

/-- An inbound HTTP request: method, path, headers and an opaque body. -/
structure Request where
  method : Method
  path : String
  headers : List (String × String)
  body : Bytes

/-- The file system, abstracted as a path-existence oracle; models the
`Path.exists()` calls on lines 61 and 66 of app.py. -/
structure FileSystem where
  pathExists : String → Bool

/-- The target file name scanned for on the search path (line 65). -/
def cliFileName : String := "cli.js"

/-- Path join, modelling `Path(path) / "cli.js"`. -/
def joinPath (dir file : String) : String :=
  dir ++ ("/") ++ file

/-- The default relative location of the CLI,
`Path(__file__).parent.parent.parent / "cli.js"` (line 60). -/
def defaultCliPath : String := "../../cli.js"

/-- Executable resolution (lines 60-68): keep the default path when it
exists; otherwise scan the configured search path (`sys.path`) in order and
take the first directory containing `cli.js`; when none does, the default
path is kept unchanged and no pre-validation happens. -/
def resolveCliPath (fs : FileSystem) (searchPath : List String) : String :=
  if fs.pathExists defaultCliPath then
    defaultCliPath
  else
    match searchPath.find? (fun dir => fs.pathExists (joinPath dir cliFileName)) with
    | some dir => joinPath dir cliFileName
    | none => defaultCliPath

/-- The spawn command line (lines 72-79): node, the resolved CLI path, then
the fixed argument contract. -/
def buildCmd (cliPath : String) : List String :=
  [("node"), cliPath, ("--headless"), ("--browser"), ("chromium"),
   ("--no-sandbox"), ("--port"), ("0")]

/-- Which standard streams are opened as pipes at spawn time (lines 83-85:
stdin, stdout and stderr are all PIPE). -/
structure SpawnConfig where
  stdinPipe : Bool
  stdoutPipe : Bool
  stderrPipe : Bool

/-- The pipe configuration used by `create_subprocess_exec` in app.py. -/
def spawnedStreams : SpawnConfig :=
  { stdinPipe := true, stdoutPipe := true, stderrPipe := true }

/-- Observable behaviour of the child process: the successive results of
`readline()` on its stdout (an element `[]` is the empty read at end of
stream; list exhaustion likewise models end of stream), and whatever it
writes to stderr. -/
structure ChildBehavior where
  stdoutReads : List Bytes
  stderrData : List Bytes

/-- The relay loop of `stream_response` (lines 92-96): read a line; if it is
empty, break; otherwise yield it and continue. The result is the list of
chunks yielded to the HTTP response, in read order. -/
def relayFrom : List Bytes → List Bytes
  | [] => []
  | l :: rest => if l = [] then [] else l :: relayFrom rest

/-- The observable result of `handle_sse_connection`: the command line the
child was spawned with, the bytes written to the stdin of the child, the
chunks streamed back, and the response metadata (lines 103-110). -/
structure SessionResult where
  cmd : List String
  stdinWrites : List Bytes
  responseChunks : List Bytes
  mediaType : String
  responseHeaders : List (String × String)

/-- The handler `handle_sse_connection` (lines 51-110). It receives the
request but never reads it; it resolves the CLI path, builds the command,
spawns the child, and returns a streaming response whose chunks come from the
stdout of the child. No statement in the source writes to the stdin of the
child or reads the request body, so `stdinWrites` is the empty list. -/
def handleSseConnection (req : Request) (fs : FileSystem) (searchPath : List String)
    (child : ChildBehavior) : SessionResult :=
  let cliPath := resolveCliPath fs searchPath
  { cmd := buildCmd cliPath
    stdinWrites := []
    responseChunks := relayFrom child.stdoutReads
    mediaType := ("text/event-stream")
    responseHeaders := [(("Cache-Control"), ("no-cache")), (("Connection"), ("keep-alive"))] }

/-- The endpoint function `mcp_sse_endpoint` (lines 113-121): it delegates to
`handle_sse_connection` unchanged. -/
def mcpSseEndpoint (req : Request) (fs : FileSystem) (searchPath : List String)
    (child : ChildBehavior) : SessionResult :=
  handleSseConnection req fs searchPath child

/-- The endpoint function `mcp_api_endpoint` (lines 124-130): it delegates to
`handle_sse_connection` unchanged. -/
def mcpApiEndpoint (req : Request) (fs : FileSystem) (searchPath : List String)
    (child : ChildBehavior) : SessionResult :=
  handleSseConnection req fs searchPath child

/-- True exactly for the verbs registered on the streaming routes
(`@app.get` and `@app.post`, lines 113-114 and 124-125). -/
def isStreamVerb : Method → Bool
  | Method.get => true
  | Method.post => true
  | _ => false

/-- Routing of the two streaming routes: both paths under both registered
verbs resolve to their endpoint function; anything else is not handled by
this part of the route table. -/
def dispatchStream (m : Method) (p : String) (req : Request) (fs : FileSystem)
    (searchPath : List String) (child : ChildBehavior) : Option SessionResult :=
  if isStreamVerb m then
    if p = ("/mcp/sse") then some (mcpSseEndpoint req fs searchPath child)
    else if p = ("/api/mcp/") then some (mcpApiEndpoint req fs searchPath child)
    else none
  else none

/-- Events observable in one run of the `stream_response` generator: a chunk
yielded to the client, and the three constituents of the `finally` block
(lines 97-101): the `returncode is None` check, `process.terminate()`, and
`await process.wait()`. -/
inductive Event
  | chunk (b : Bytes)
  | checkExited
  | terminateChild
  | reapWait
deriving DecidableEq

/-- How the relay loop was exited: normal end of stream (empty read),
an exception raised at the k-th iteration, or cancellation of the owning
task during the k-th read. -/
inductive ExitPath
  | eof
  | exn (k : Nat)
  | cancel (k : Nat)
deriving DecidableEq

/-- The chunks actually yielded before the loop exits: all of them on normal
end of stream, a prefix when an exception or a cancellation interrupts the
k-th iteration. -/
def loopReads (reads : List Bytes) : ExitPath → List Bytes
  | ExitPath.eof => relayFrom reads
  | ExitPath.exn k => (relayFrom reads).take k
  | ExitPath.cancel k => (relayFrom reads).take k

/-- The loop part of the generator trace. -/
def loopEvents (reads : List Bytes) (ep : ExitPath) : List Event :=
  (loopReads reads ep).map Event.chunk

/-- The `finally` block (lines 97-101), as the events it performs given the
returncode of the child at that moment: the check always happens; the
terminate and the reap-wait happen exactly when the returncode is still
unset. In asyncio a set returncode means the event loop has already reaped
the child. -/
def finallyEvents (rc : Option Int) : List Event :=
  Event.checkExited ::
    (if rc = none then [Event.terminateChild, Event.reapWait] else [])

/-- A complete run of the `stream_response` generator: the loop events
followed by the `finally` block, which Python runs exactly once on every
exit path of the loop (normal exhaustion, exception propagation, and
generator close / task cancellation). -/
def streamResponseTrace (reads : List Bytes) (ep : ExitPath) (rc : Option Int) :
    List Event :=
  loopEvents reads ep ++ finallyEvents rc

/-- Number of occurrences of an event in a trace. -/
def countEvent (e : Event) (tr : List Event) : Nat :=
  tr.countP (fun x => decide (x = e))

/-- Coarse lifecycle events of one session, in program order: the handler
resolves the executable, spawns the child (line 81), returns the
`StreamingResponse` object (line 103); only afterwards does the framework
read the response body (each read drives the generator one step). -/
inductive LifeEvent
  | resolveExecutable
  | spawn
  | returnResponse
  | bodyRead (n : Nat)
deriving DecidableEq

/-- The lifecycle trace of a session whose response body is read n times by
the consumer. The order of the first three events is the order of the
statements in `handle_sse_connection`; body reads can only happen after the
response object has been returned. -/
def sessionTrace (n : Nat) : List LifeEvent :=
  LifeEvent.resolveExecutable :: LifeEvent.spawn :: LifeEvent.returnResponse ::
    (List.range n).map LifeEvent.bodyRead

/-- Recognises a body-read event. -/
def isBodyRead : LifeEvent → Bool
  | LifeEvent.bodyRead _ => true
  | _ => false

/-- Number of occurrences of a lifecycle event in a trace. -/
def countLife (e : LifeEvent) (tr : List LifeEvent) : Nat :=
  tr.countP (fun x => decide (x = e))

/-! ### Helper lemmas -/

theorem countEvent_append (e : Event) (a b : List Event) :
    countEvent e (a ++ b) = countEvent e a + countEvent e b := by
  simp [countEvent, List.countP_append]

theorem countEvent_map_chunk (e : Event) (xs : List Bytes)
    (h : ∀ b, Event.chunk b ≠ e) :
    countEvent e (xs.map Event.chunk) = 0 := by
  induction xs with
  | nil => rfl
  | cons b rest ih =>
    simp only [List.map_cons, countEvent, List.countP_cons] at ih ⊢
    simp [ih, h b]

theorem find?_first_match {α : Type} (p : α → Bool) (pre : List α) (x : α)
    (suf : List α) (hpre : ∀ y ∈ pre, p y = false) (hx : p x = true) :
    (pre ++ x :: suf).find? p = some x := by
  induction pre with
  | nil => simpa using List.find?_cons_of_pos suf hx
  | cons a rest ih =>
    have ha : ¬ p a := by simp [hpre a (by simp)]
    have step := List.find?_cons_of_neg (rest ++ x :: suf) ha
    simpa [step] using ih (fun y hy => hpre y (by simp [hy]))

theorem mem_of_mem_relayFrom {c : Bytes} :
    ∀ {xs : List Bytes}, c ∈ relayFrom xs → c ∈ xs := by
  intro xs
  induction xs with
  | nil => intro h; simp [relayFrom] at h
  | cons l rest ih =>
    intro h
    by_cases hl : l = []
    · simp [relayFrom, hl] at h
    · simp only [relayFrom, if_neg hl, List.mem_cons] at h
      rcases h with h | h
      · exact h ▸ List.mem_cons_self l rest
      · exact List.mem_cons_of_mem l (ih h)

theorem findIdx_bodyRead_map (xs : List Nat) :
    (xs.map LifeEvent.bodyRead).findIdx isBodyRead = 0 := by
  cases xs <;> simp [List.findIdx_cons, isBodyRead]

theorem countLife_map_bodyRead (e : LifeEvent) (xs : List Nat)
    (h : ∀ n, LifeEvent.bodyRead n ≠ e) :
    countLife e (xs.map LifeEvent.bodyRead) = 0 := by
  induction xs with
  | nil => rfl
  | cons n rest ih =>
    simp only [List.map_cons, countLife, List.countP_cons] at ih ⊢
    simp [ih, h n]

/-! ### Claims -/

/-- C1: for every spawned session, on every exit path of the relay loop of
`stream_response` (normal end of stream, an exception propagating out of the
loop, or cancellation of the owning task), the `finally` cleanup runs
exactly once: the already-exited check occurs exactly once in the trace, and
the termination signal and the reap-wait each occur exactly once when the
child had not yet exited (when its returncode is already set, asyncio has
already reaped it, and they occur zero times). No run reaps twice and no run
skips cleanup. -/
theorem lifecycle_guard_runs_exactly_once (reads : List Bytes) (ep : ExitPath)
    (rc : Option Int) :
    countEvent Event.checkExited (streamResponseTrace reads ep rc) = 1 ∧
    countEvent Event.terminateChild (streamResponseTrace reads ep rc)
      = (if rc = none then 1 else 0) ∧
    countEvent Event.reapWait (streamResponseTrace reads ep rc)
      = (if rc = none then 1 else 0) := by
  have hchk : ∀ b, Event.chunk b ≠ Event.checkExited := by intro b; simp
  have hterm : ∀ b, Event.chunk b ≠ Event.terminateChild := by intro b; simp
  have hreap : ∀ b, Event.chunk b ≠ Event.reapWait := by intro b; simp
  unfold streamResponseTrace loopEvents
  refine ⟨?_, ?_, ?_⟩ <;>
    rw [countEvent_append] <;>
    [rw [countEvent_map_chunk _ _ hchk]; rw [countEvent_map_chunk _ _ hterm];
     rw [countEvent_map_chunk _ _ hreap]] <;>
    cases rc <;> rfl

/-- C2: the relay loop forwards exactly the reads that precede the first
empty read, verbatim and in strict first-in-first-out order (it equals the
longest prefix of non-empty reads), and for a child that emits three
non-empty lines and then closes stdout the client receives exactly those
three chunks in emission order before the stream ends. -/
theorem stream_relay_fifo_order (reads : List Bytes) (l1 l2 l3 : Bytes)
    (h1 : l1 ≠ []) (h2 : l2 ≠ []) (h3 : l3 ≠ []) :
    relayFrom reads = reads.takeWhile (fun l => !l.isEmpty) ∧
    relayFrom [l1, l2, l3] = [l1, l2, l3] := by
  constructor
  · induction reads with
    | nil => rfl
    | cons l rest ih =>
      cases l with
      | nil => simp [relayFrom, List.takeWhile]
      | cons x xs => simp [relayFrom, List.takeWhile, ih]
  · simp [relayFrom, h1, h2, h3]

/-- Witness for C2 at concrete inputs. -/
theorem stream_relay_fifo_order_witness :
    relayFrom [[1], [], [2]] = ([[1], [], [2]] : List Bytes).takeWhile (fun l => !l.isEmpty) ∧
    relayFrom [([10] : Bytes), [20], [30]] = [[10], [20], [30]] :=
  stream_relay_fifo_order [[1], [], [2]] [10] [20] [30]
    (by decide) (by decide) (by decide)

/-- C3: executable resolution policy. When the default relative path exists
it is kept; when it is absent, the search-path directories are scanned in
order and the first one containing the target filename wins; when the
default is absent and no directory contains it, the default path is kept
(and spawning is left to fail naturally, with no pre-validation in
`resolveCliPath`). -/
theorem executable_resolution_policy (fs : FileSystem) (sp : List String) :
    (fs.pathExists defaultCliPath = true → resolveCliPath fs sp = defaultCliPath) ∧
    (fs.pathExists defaultCliPath = false →
      ∀ pre dir suf, sp = pre ++ dir :: suf →
        (∀ x ∈ pre, fs.pathExists (joinPath x cliFileName) = false) →
        fs.pathExists (joinPath dir cliFileName) = true →
        resolveCliPath fs sp = joinPath dir cliFileName) ∧
    (fs.pathExists defaultCliPath = false →
      (∀ x ∈ sp, fs.pathExists (joinPath x cliFileName) = false) →
      resolveCliPath fs sp = defaultCliPath) := by
  refine ⟨?_, ?_, ?_⟩
  · intro h
    simp [resolveCliPath, h]
  · intro h pre dir suf hsp hpre hdir
    subst hsp
    have hfind := find?_first_match
      (fun d => fs.pathExists (joinPath d cliFileName)) pre dir suf hpre hdir
    simp [resolveCliPath, h, hfind]
  · intro h hall
    have hfind : sp.find? (fun d => fs.pathExists (joinPath d cliFileName)) = none := by
      rw [List.find?_eq_none]
      intro x hx
      simp [hall x hx]
    simp [resolveCliPath, h, hfind]

/-- File system for the C3 witness: only d2/cli.js exists. -/
def fsOnlyD2 : FileSystem :=
  { pathExists := fun p => p == ("d2/cli.js") }

/-- Witness for C3: default path absent, search path [d1, d2] with the file
present only in d2; resolution returns d2/cli.js. -/
theorem executable_resolution_policy_witness :
    resolveCliPath fsOnlyD2 [("d1"), ("d2")] = joinPath ("d2") cliFileName :=
  (executable_resolution_policy fsOnlyD2 [("d1"), ("d2")]).2.1
    (by decide) [("d1")] ("d2") [] rfl (by decide) (by decide)

/-- A concrete POST request carrying a non-empty body, for C4. -/
def samplePostRequest : Request :=
  { method := Method.post
    path := ("/mcp/sse")
    headers := []
    body := [123, 34, 105, 100, 34, 125] }

/-- A file system in which no path exists. -/
def emptyFs : FileSystem :=
  { pathExists := fun _ => false }

/-- A child behaviour emitting one line then closing stdout, for C4. -/
def sampleChild : ChildBehavior :=
  { stdoutReads := [[104, 105]], stderrData := [] }

/-- C4 evaluation at the failing input: the request body is non-empty, yet
the handler writes nothing to the stdin of the child - the source opens the
stdin pipe but contains no statement that reads the request body or writes
to the pipe, so the body is not forwarded. -/
theorem request_body_never_forwarded :
    samplePostRequest.body ≠ [] ∧
    (handleSseConnection samplePostRequest emptyFs [("d1")] sampleChild).stdinWrites
      = [] := by
  exact ⟨by decide, rfl⟩

/-- C5: the command line of every session is exactly node, the resolved CLI
path, then the fixed argument contract: the headless flag, the chromium
browser-engine selector, the sandbox-disable flag, and the stdio-transport
selector given as port value zero. The specification is a pure value built
once per session and, being a value, never mutated. -/
theorem session_command_contract (req : Request) (fs : FileSystem)
    (sp : List String) (child : ChildBehavior) :
    (handleSseConnection req fs sp child).cmd
      = [("node"), resolveCliPath fs sp, ("--headless"), ("--browser"),
         ("chromium"), ("--no-sandbox"), ("--port"), ("0")] ∧
    ("--headless") ∈ (handleSseConnection req fs sp child).cmd ∧
    List.IsInfix [("--browser"), ("chromium")] (handleSseConnection req fs sp child).cmd ∧
    ("--no-sandbox") ∈ (handleSseConnection req fs sp child).cmd ∧
    List.IsInfix [("--port"), ("0")] (handleSseConnection req fs sp child).cmd := by
  refine ⟨rfl, ?_, ?_, ?_, ?_⟩
  · exact List.mem_cons_of_mem _ (List.mem_cons_of_mem _ (List.mem_cons_self _ _))
  · exact ⟨[("node"), resolveCliPath fs sp, ("--headless")],
      [("--no-sandbox"), ("--port"), ("0")], rfl⟩
  · exact List.mem_cons_of_mem _ (List.mem_cons_of_mem _ (List.mem_cons_of_mem _
      (List.mem_cons_of_mem _ (List.mem_cons_of_mem _ (List.mem_cons_self _ _)))))
  · exact ⟨[("node"), resolveCliPath fs sp, ("--headless"), ("--browser"),
      ("chromium"), ("--no-sandbox")], [], rfl⟩

/-- C6: the two route paths, each under both GET and POST, all resolve to
the same session-establishment function: the four dispatch entries return
the very same session result for any request, file system and child
behaviour, so observable behaviour does not depend on the alias path or the
verb used. -/
theorem endpoint_aliases_equivalent (req : Request) (fs : FileSystem)
    (sp : List String) (child : ChildBehavior) :
    dispatchStream Method.get ("/mcp/sse") req fs sp child
      = some (handleSseConnection req fs sp child) ∧
    dispatchStream Method.post ("/mcp/sse") req fs sp child
      = some (handleSseConnection req fs sp child) ∧
    dispatchStream Method.get ("/api/mcp/") req fs sp child
      = some (handleSseConnection req fs sp child) ∧
    dispatchStream Method.post ("/api/mcp/") req fs sp child
      = some (handleSseConnection req fs sp child) := by
  refine ⟨rfl, rfl, ?_, ?_⟩ <;>
    simp [dispatchStream, isStreamVerb, mcpApiEndpoint]

/-- C7 counterexample: the claim that the child process is created only on
the first read of the response body is false on the code. In a session whose
body is never read (zero body reads), the spawn event is nonetheless present
in the trace; and in a session with one body read, the spawn occurs at
position 1, strictly before the return of the response object at position 2
and the first body read at position 3. -/
theorem spawn_before_first_read_cex :
    LifeEvent.spawn ∈ sessionTrace 0 ∧
    (sessionTrace 0).countP isBodyRead = 0 ∧
    (sessionTrace 1).findIdx (fun e => decide (e = LifeEvent.spawn)) = 1 ∧
    (sessionTrace 1).findIdx isBodyRead = 3 := by
  decide

/-- C7 amended: the child process is spawned eagerly while the endpoint
handler runs - exactly once per session, after executable resolution and
before the streaming response object is returned - and therefore before any
read of the response body; only the production of chunks is deferred to body
reads. In every session trace the spawn sits at index 1 and the first body
read, when any occurs, at index 3. -/
theorem spawn_eager_before_body_reads (n : Nat) :
    countLife LifeEvent.spawn (sessionTrace n) = 1 ∧
    (sessionTrace n).findIdx (fun e => decide (e = LifeEvent.spawn)) = 1 ∧
    (sessionTrace n).findIdx isBodyRead = 3 := by
  refine ⟨?_, ?_, ?_⟩
  · have h0 : countLife LifeEvent.spawn ((List.range n).map LifeEvent.bodyRead) = 0 :=
      countLife_map_bodyRead LifeEvent.spawn (List.range n) (by intro m; simp)
    simp only [sessionTrace, countLife, List.countP_cons] at h0 ⊢
    simp [h0]
  · simp [sessionTrace, List.findIdx_cons]
  · have h0 := findIdx_bodyRead_map (List.range n)
    simp [sessionTrace, List.findIdx_cons, isBodyRead, h0]

/-- C8: when the child has already exited as the cleanup block runs (its
returncode is set), the cleanup performs only the check and nothing else: no
termination signal is sent and no wait is performed, on any exit path of the
loop. -/
theorem cleanup_noop_when_already_exited (c : Int) (reads : List Bytes)
    (ep : ExitPath) :
    finallyEvents (some c) = [Event.checkExited] ∧
    countEvent Event.terminateChild (streamResponseTrace reads ep (some c)) = 0 ∧
    countEvent Event.reapWait (streamResponseTrace reads ep (some c)) = 0 := by
  have hterm : ∀ b, Event.chunk b ≠ Event.terminateChild := by intro b; simp
  have hreap : ∀ b, Event.chunk b ≠ Event.reapWait := by intro b; simp
  refine ⟨rfl, ?_, ?_⟩ <;>
    unfold streamResponseTrace loopEvents <;>
    rw [countEvent_append] <;>
    [rw [countEvent_map_chunk _ _ hterm]; rw [countEvent_map_chunk _ _ hreap]] <;>
    rfl

/-- C9: the streaming response is independent of the incoming request: for
any two requests whatsoever (any method, path, headers or body), with the
file system, search path and child behaviour fixed, the handler produces
identical session results - the same command line, stdin writes, chunks,
media type and headers. -/
theorem response_independent_of_request (r1 r2 : Request) (fs : FileSystem)
    (sp : List String) (child : ChildBehavior) :
    handleSseConnection r1 fs sp child = handleSseConnection r2 fs sp child :=
  rfl

/-- C10: stderr is opened as a pipe at spawn time but never read: the
session result is unchanged under any change of the stderr data of the
child, and every chunk of the response body is one of the stdout reads of
the child. -/
theorem stderr_opened_but_never_read (req : Request) (fs : FileSystem)
    (sp : List String) (so se1 se2 : List Bytes) :
    spawnedStreams.stderrPipe = true ∧
    handleSseConnection req fs sp { stdoutReads := so, stderrData := se1 }
      = handleSseConnection req fs sp { stdoutReads := so, stderrData := se2 } ∧
    ∀ c ∈ (handleSseConnection req fs sp
        { stdoutReads := so, stderrData := se1 }).responseChunks, c ∈ so := by
  refine ⟨rfl, rfl, ?_⟩
  intro c hc
  exact mem_of_mem_relayFrom hc

/-- Witness for C10 at concrete inputs: a child that emits one stdout line
and one stderr line gives the same session result as one with stderr silent,
and the concrete chunk is among the stdout reads. -/
theorem stderr_opened_but_never_read_witness :
    spawnedStreams.stderrPipe = true ∧
    handleSseConnection samplePostRequest emptyFs []
        { stdoutReads := [[1]], stderrData := [[9]] }
      = handleSseConnection samplePostRequest emptyFs []
        { stdoutReads := [[1]], stderrData := [] } ∧
    ([1] : Bytes) ∈ [[1]] := by
  have h := stderr_opened_but_never_read samplePostRequest emptyFs [] [[1]] [[9]] []
  exact ⟨h.1, h.2.1, h.2.2 [1] (by decide)⟩
